import Mathlib

/-!
# Verification of the TP_ObjetsConnectes provisioning and link-management firmware

Shallow embedding of `Driver_Credentials.cpp`, `Driver_LoRaWan.cpp` and the
sketch `setup`/`loop` (Driver_SHT31 sketch file).  Strings are modelled as
`List Char`, machine bytes as `Nat`, the C `int`/`long` types as `Int` (no
value in any claim approaches the 32-bit overflow boundary), and the two
serial peripherals as explicit inputs: the NVM read path is a function of the
textual response it receives, and the credential dispatcher is a function of
the command line and the current credential state.
-/

namespace TPObjets

/-- Hex-digit test used by `isCredential`
(`'0'..'9'`, `'A'..'F'`, `'a'..'f'`), exactly the three range checks of the
C++ `while` condition. -/
def isHexChar (c : Char) : Bool :=
  decide (('0' ≤ c ∧ c ≤ '9') ∨ ('A' ≤ c ∧ c ≤ 'F') ∨ ('a' ≤ c ∧ c ≤ 'f'))

/-- The `while (k < size && isHex(credential[k])) k++` loop of `isCredential`:
returns the final value of `k`, i.e. the length of the run of hex characters
at the front of the string, capped at `size`.  Reading past the end of the
string yields the Arduino `String::operator[]` out-of-range value `'\0'`,
which is not a hex digit, so the run stops there — hence the `[]` case
returns the current count. -/
def hexRun : List Char → Nat → Nat
  | c :: t, n + 1 => if isHexChar c then hexRun t n + 1 else 0
  | _, _ => 0

/-- `isCredential(String credential, int size)`: length must be exactly
`size + 1` (trailing line terminator included) and the first `size`
characters must all be hex digits. -/
def isCredential (credential : List Char) (size : Nat) : Bool :=
  if credential.length ≠ size + 1 then false
  else if hexRun credential size ≠ size then false
  else true

/-- `isDevEUI`: a 16-hex-char credential. -/
def isDevEUI (devEUI : List Char) : Bool :=
  isCredential devEUI 16

/-- `isAppEUI`: a 16-hex-char credential. -/
def isAppEUI (appEUI : List Char) : Bool :=
  isCredential appEUI 16

/-- `isAppKey`: a 32-hex-char credential. -/
def isAppKey (appKey : List Char) : Bool :=
  isCredential appKey 32

/-- The mutable globals of `Driver_Credentials.cpp`: the three credential
strings and the `configuration` completion flag. -/
structure CredState where
  devEui : List Char
  appEui : List Char
  appKey : List Char
  configuration : Bool
deriving DecidableEq

/-- `processCommand(String command)` from `Driver_Credentials.cpp`, as a
state transformer on the credential globals.  `command.remove(0,5)` is
`List.drop 5`; `String::startsWith` is `List.isPrefixOf`.  Note the guard of
the `AT+S` branch tests `appEui` twice and never `devEui`, exactly as in the
source (`appEui!="" && appEui!="" && appKey!=""`). -/
def processCommand (command : List Char) (s : CredState) : CredState :=
  if command = "AT?\n".toList then s
  else if "AT+D=".toList.isPrefixOf command then
    let v := command.drop 5
    if isDevEUI v then { s with devEui := v } else s
  else if "AT+A".toList.isPrefixOf command then
    let v := command.drop 5
    if isAppEUI v then { s with appEui := v } else s
  else if "AT+K".toList.isPrefixOf command then
    let v := command.drop 5
    if isAppKey v then { s with appKey := v } else s
  else if command = "AT+S\n".toList then
    if s.appEui ≠ [] ∧ s.appEui ≠ [] ∧ s.appKey ≠ [] then
      { s with configuration := true }
    else s
  else s

/-- Dispatching a whole session of command lines in order, as the
`init_Credentials` polling loop does one line at a time. -/
def processSeq (cmds : List (List Char)) (s : CredState) : CredState :=
  cmds.foldl (fun st c => processCommand c st) s

/-- The argument triple of the `modem.joinOTAA(appEui, appKey, devEui)` call
in `connect()` (`Driver_LoRaWan.cpp`): the three credential globals are
passed through verbatim, in this order, with no transformation. -/
def joinOTAACall (s : CredState) : List Char × List Char × List Char :=
  (s.appEui, s.appKey, s.devEui)

/-- `#define MAGICNUMBER 92`. -/
def MAGICNUMBER : Nat := 92

/-- `credentialsAlreadyInit()`: reads NVM addresses 0, 1, 2 and checks the
magic / state / checksum record.  The read path is abstracted as the function
`read` from address to the byte the three `readNVM` calls return (the byte
arithmetic `magicNumber + state` is C `int` addition of two bytes, which
cannot overflow, so plain `Nat` addition is exact). -/
def credentialsAlreadyInit (read : Nat → Nat) : Bool :=
  let magicNumber := read 0
  let state := read 1
  let checksum := read 2
  if magicNumber ≠ MAGICNUMBER ∨ state ≠ 1 ∨ magicNumber + state ≠ checksum then
    false
  else true

/-! ## NVM read path (`readNVM`) -/

/-- First index at which `pat` occurs as a contiguous substring, Arduino
`String::indexOf` style (`none` for the C return value `-1`). -/
def firstOccur (pat : List Char) : List Char → Option Nat
  | [] => if pat.isPrefixOf ([] : List Char) then some 0 else none
  | c :: t =>
    if pat.isPrefixOf (c :: t) then some 0
    else (firstOccur pat t).map (· + 1)

/-- `String::indexOf(String)` with the C convention `-1` for "not found". -/
def idxOfStr (l pat : List Char) : Int :=
  match firstOccur pat l with
  | some i => (i : Int)
  | none => -1

/-- The `int → unsigned int` conversion the Arduino `String` API performs on
index arguments (32-bit wraparound). -/
def toU32 (i : Int) : Nat :=
  (i % 4294967296).toNat

/-- The `long → uint8_t` conversion applied to `readNVM`'s return value. -/
def toU8 (i : Int) : Nat :=
  (i % 256).toNat

/-- `String::indexOf(char ch, unsigned int fromIndex)`: `fromIndex` goes
through the unsigned conversion (so a C `-1` becomes huge and fails the
`fromIndex >= len()` guard, giving `-1`); otherwise the first occurrence of
`ch` at or after `fromIndex` is returned as an absolute index. -/
def idxOfCharFrom (l : List Char) (ch : Char) (fromIdx : Int) : Int :=
  if l.length ≤ toU32 fromIdx then -1
  else
    match firstOccur [ch] (l.drop (toU32 fromIdx)) with
    | some i => ((toU32 fromIdx + i : Nat) : Int)
    | none => -1

/-- `String::substring(unsigned int left, unsigned int right)`: both bounds
go through the unsigned conversion, the pair is swapped if out of order,
`left ≥ len` gives the empty string and `right` is clamped to `len`; the
result is the index range `[left, right)`. -/
def substrAR (l : List Char) (left right : Int) : List Char :=
  let lu := toU32 left
  let ru := toU32 right
  let a := if lu > ru then ru else lu
  let b := if lu > ru then lu else ru
  if l.length ≤ a then []
  else (l.take (min b l.length)).drop a

/-- `isspace` on the ASCII characters `atol` skips. -/
def isSpaceCh (c : Char) : Bool :=
  decide (c = ' ' ∨ c = '\t' ∨ c = '\n' ∨ c = '\x0b' ∨ c = '\x0c' ∨ c = '\r')

/-- Leading-whitespace skipping of `atol`. -/
def skipWs : List Char → List Char
  | [] => []
  | c :: t => if isSpaceCh c then skipWs t else c :: t

/-- ASCII decimal digit test. -/
def isDigitCh (c : Char) : Bool :=
  decide ('0' ≤ c ∧ c ≤ '9')

/-- The digit-accumulation loop of `atol`: consumes leading decimal digits,
returning the accumulated value (the NVM values in play are at most three
digits, far below `long` overflow, so `Nat` accumulation is exact). -/
def digitsVal : List Char → Nat → Nat
  | [], acc => acc
  | c :: t, acc => if isDigitCh c then digitsVal t (acc * 10 + (c.toNat - 48)) else acc

/-- `String::toInt`, i.e. C `atol`: skip whitespace, read an optional single
sign, then leading decimal digits; a string with no leading number yields
0. -/
def atolM (l : List Char) : Int :=
  match skipWs l with
  | [] => 0
  | c :: t =>
    if c = '-' then -((digitsVal t 0 : Nat) : Int)
    else if c = '+' then ((digitsVal t 0 : Nat) : Int)
    else ((digitsVal (c :: t) 0 : Nat) : Int)

/-- `readNVM(uint8_t address)` as a function of the textual response the
radio module sends back: if the response has no `"+ERR"` marker, the text
between the first `'='` and the next `'\n'` is extracted and converted with
`toInt`; otherwise the local is set to `"255"` first.  The `long` result is
truncated to the `uint8_t` return type. -/
def readNVM (response : List Char) : Nat :=
  if idxOfStr response ("+ERR".toList) = -1 then
    let startIndex := idxOfStr response ("=".toList)
    let endIndex := idxOfCharFrom response '\n' startIndex
    toU8 (atolM (substrAR response (startIndex + 1) endIndex))
  else
    toU8 (atolM ("255".toList))

/-- The text `readNVM` extracts from a non-error response (between the first
`'='` and the following `'\n'`). -/
def nvmExtract (response : List Char) : List Char :=
  substrAR response (idxOfStr response ("=".toList) + 1)
    (idxOfCharFrom response '\n' (idxOfStr response ("=".toList)))

/-- Whether `atol` finds a leading number: after whitespace and an optional
sign there is at least one decimal digit. -/
def hasLeadingNum (l : List Char) : Bool :=
  match skipWs l with
  | [] => false
  | c :: t =>
    if c = '-' ∨ c = '+' then
      match t with
      | [] => false
      | d :: _ => isDigitCh d
    else isDigitCh c

/-! ## Link state machine (`Driver_LoRaWan.cpp`) -/

/-- The mutable globals of `Driver_LoRaWan.cpp`: the `connected` flag and
the consecutive-failure counter `err_count` (a C `int`). -/
structure LinkState where
  connected : Bool
  err_count : Int
deriving DecidableEq

/-- One call of `send(char msg[], int size)`, parameterised by the value
`err` that `modem.endPacket(true)` returns: on failure (`err ≤ 0`) the
counter is incremented and, if the incremented counter exceeds 50, the link
is marked disconnected; on success the counter is reset to 0. -/
def sendStep (err : Int) (s : LinkState) : LinkState :=
  if err ≤ 0 then
    let ec := s.err_count + 1
    { connected := if ec > 50 then false else s.connected, err_count := ec }
  else
    { connected := s.connected, err_count := 0 }

/-- One call of `connect()`, parameterised by the value `ret` that
`modem.joinOTAA` returns: C truthiness `if (ret)` succeeds exactly when
`ret ≠ 0`, setting `connected = true` and `err_count = 0`; otherwise the
state is untouched. -/
def connectStep (ret : Int) (s : LinkState) : LinkState :=
  if ret ≠ 0 then { connected := true, err_count := 0 } else s

/-- A sequence of `send` calls with the given list of `endPacket` results. -/
def sendSeq (errs : List Int) (s : LinkState) : LinkState :=
  errs.foldl (fun st e => sendStep e st) s

/-! ## Payload construction (`loop()` in the sketch file) -/

/-- The four bytes `bytePointerX[0..3]` of a 4-byte float on the
little-endian Cortex-M0+ target, with the float represented by its 32-bit
pattern. -/
def floatBytes (bits : Nat) : List Nat :=
  [bits % 256, bits / 256 % 256, bits / 256 / 256 % 256, bits / 256 / 256 / 256 % 256]

/-- The 8-byte `msg` array of `loop()`: temperature bytes then humidity
bytes. -/
def buildMsg (tBits hBits : Nat) : List Nat :=
  floatBytes tBits ++ floatBytes hBits

/-- Reassembling a 32-bit pattern from its four bytes (the inverse byte
layout of `floatBytes`). -/
def bytesToBits (bs : List Nat) : Nat :=
  match bs with
  | [b0, b1, b2, b3] => b0 + 256 * b1 + 65536 * b2 + 16777216 * b3
  | _ => 0

/-- Decoding the 8-byte payload back into the two 32-bit float patterns. -/
def decodeMsg (msg : List Nat) : Nat × Nat :=
  (bytesToBits (msg.take 4), bytesToBits (msg.drop 4))

/-! ## Helper lemmas -/

lemma hexRun_zero (l : List Char) : hexRun l 0 = 0 := by
  cases l <;> rfl

lemma hexRun_cons (c : Char) (t : List Char) (n : Nat) :
    hexRun (c :: t) (n + 1) = if isHexChar c then hexRun t n + 1 else 0 := rfl

lemma hexRun_eq_iff (l : List Char) (n : Nat) (h : n ≤ l.length) :
    hexRun l n = n ↔ (l.take n).all isHexChar = true := by
  induction l generalizing n with
  | nil =>
    have : n = 0 := by simpa using h
    subst this
    simp [hexRun_zero]
  | cons c t ih =>
    cases n with
    | zero => simp [hexRun_zero]
    | succ m =>
      rw [hexRun_cons, List.take_succ_cons, List.all_cons]
      by_cases hc : isHexChar c
      · have hm : m ≤ t.length := by simpa using h
        simp [hc, ih m hm]
      · simp [hc]

lemma isCredential_length {v : List Char} {n : Nat} (h : isCredential v n = true) :
    v.length = n + 1 := by
  by_cases hl : v.length = n + 1
  · exact hl
  · simp [isCredential, hl] at h

lemma isCredential_iff (v : List Char) (n : Nat) :
    isCredential v n = true ↔ v.length = n + 1 ∧ (v.take n).all isHexChar = true := by
  constructor
  · intro h
    have hl := isCredential_length h
    refine ⟨hl, ?_⟩
    have hle : n ≤ v.length := by omega
    rw [← hexRun_eq_iff v n hle]
    by_cases hr : hexRun v n = n
    · exact hr
    · simp [isCredential, hl, hr] at h
  · rintro ⟨hl, hall⟩
    have hle : n ≤ v.length := by omega
    have hr : hexRun v n = n := (hexRun_eq_iff v n hle).mpr hall
    simp [isCredential, hl, hr]

lemma getLast?_drop_ne_nil {l : List Char} {n : Nat} (h : l.drop n ≠ []) :
    (l.drop n).getLast? = l.getLast? := by
  induction n generalizing l with
  | zero => rfl
  | succ m ih =>
    cases l with
    | nil => simp at h
    | cons c t =>
      rw [List.drop_succ_cons] at h ⊢
      rw [ih h]
      cases t with
      | nil => simp at h
      | cons d u => rw [List.getLast?_cons_cons]

/-! ## Claim theorems -/

/-- C4: `isCredential(s, N)` returns true iff the length of `s` is `N + 1`
and each of the first `N` characters is a hex digit; moreover `isAppKey` on
32 `'a'` characters followed by a newline returns true, and `isDevEUI` on 16
`'g'` characters followed by a newline returns false. -/
theorem isCredential_characterization :
    (∀ (s : List Char) (N : Nat),
      isCredential s N = true ↔ s.length = N + 1 ∧ (s.take N).all isHexChar = true) ∧
    isAppKey (List.replicate 32 'a' ++ ['\n']) = true ∧
    isDevEUI (List.replicate 16 'g' ++ ['\n']) = false :=
  ⟨isCredential_iff, by decide, by decide⟩

/-- The credential state exhibiting the `AT+S` guard bug: `devEui` is still
empty while `appEui` and `appKey` hold accepted, validated values. -/
def c1State : CredState :=
  { devEui := []
    appEui := List.replicate 16 '0' ++ ['\n']
    appKey := List.replicate 32 '0' ++ ['\n']
    configuration := false }

/-- C1 (code bug): with `devEui` empty but `appEui` and `appKey` set,
`processCommand "AT+S\n"` nevertheless completes provisioning — the guard
tests `appEui` twice and never `devEui`, so the configuration flag becomes
true although the claim (and the code's own documentation and error message)
require all three credentials to be non-empty. -/
theorem atS_completes_with_empty_devEui :
    c1State.devEui = [] ∧ c1State.configuration = false ∧
    (processCommand ("AT+S\n".toList) c1State).configuration = true := by
  decide

/-- The read path after the two provisioning-record writes of
`init_Credentials` (post-provisioning triple `92, 1, 93`). -/
def postTriple : Nat → Nat :=
  fun a => if a = 0 then 92 else if a = 1 then 1 else 93

/-- The read path after the three stamp writes in `setup()`
(pre-provisioning triple `92, 0, 92`). -/
def preTriple : Nat → Nat :=
  fun a => if a = 0 then 92 else if a = 1 then 0 else 92

/-- A read path where the checksum read failed (error sentinel 255) while
magic and state are individually consistent with a configured record. -/
def errTriple : Nat → Nat :=
  fun a => if a = 0 then 92 else if a = 1 then 1 else 255

/-- C3: `credentialsAlreadyInit()` returns true iff the three reads give
magic = 92, state = 1 and checksum = 93 = magic + state; in particular the
pre-provisioning stamped triple (92, 0, 92) yields false. -/
theorem credentialsAlreadyInit_iff :
    (∀ read : Nat → Nat,
      credentialsAlreadyInit read = true ↔ read 0 = 92 ∧ read 1 = 1 ∧ read 2 = 93) ∧
    credentialsAlreadyInit preTriple = false := by
  constructor
  · intro read
    simp only [credentialsAlreadyInit, MAGICNUMBER]
    constructor
    · intro h
      by_cases hcond : read 0 ≠ 92 ∨ read 1 ≠ 1 ∨ read 0 + read 1 ≠ read 2
      · simp [hcond] at h
      · push_neg at hcond
        obtain ⟨h0, h1, h2⟩ := hcond
        exact ⟨h0, h1, by omega⟩
    · rintro ⟨h0, h1, h2⟩
      have : ¬(read 0 ≠ 92 ∨ read 1 ≠ 1 ∨ read 0 + read 1 ≠ read 2) := by omega
      simp [this]
  · decide

/-- C5: whenever any one of the three store reads returns the error sentinel
255, `credentialsAlreadyInit()` returns false, even if the other two values
are individually consistent with a valid configured record. -/
theorem credentialsAlreadyInit_err_sentinel (read : Nat → Nat)
    (h : read 0 = 255 ∨ read 1 = 255 ∨ read 2 = 255) :
    credentialsAlreadyInit read = false := by
  simp only [credentialsAlreadyInit, MAGICNUMBER]
  have : read 0 ≠ 92 ∨ read 1 ≠ 1 ∨ read 0 + read 1 ≠ read 2 := by omega
  simp [this]

/-- Witness for C5: the concrete triple (92, 1, 255) — magic and state valid
but the checksum read failed — is rejected. -/
theorem credentialsAlreadyInit_err_sentinel_witness :
    errTriple 2 = 255 ∧ credentialsAlreadyInit errTriple = false :=
  ⟨rfl, credentialsAlreadyInit_err_sentinel errTriple (Or.inr (Or.inr rfl))⟩

/-- C6: a single `send` call — on transmit failure (`err ≤ 0`) the error
counter is incremented by exactly one and, when the link was up, it goes
down exactly when the incremented counter exceeds 50; on transmit success
the counter is reset to 0 and the connected flag is left unchanged. -/
theorem send_single_call (s : LinkState) (err : Int) :
    (err ≤ 0 →
      (sendStep err s).err_count = s.err_count + 1 ∧
      (s.connected = true →
        ((sendStep err s).connected = false ↔ 50 < s.err_count + 1))) ∧
    (0 < err →
      (sendStep err s).err_count = 0 ∧ (sendStep err s).connected = s.connected) := by
  constructor
  · intro hf
    have hstep : sendStep err s =
        { connected := if s.err_count + 1 > 50 then false else s.connected,
          err_count := s.err_count + 1 } := by
      rw [sendStep, if_pos hf]
    rw [hstep]
    refine ⟨rfl, fun hc => ?_⟩
    by_cases hgt : s.err_count + 1 > 50
    · rw [if_pos hgt]
      exact ⟨fun _ => hgt, fun _ => rfl⟩
    · rw [if_neg hgt, hc]
      exact ⟨fun h => absurd h (by simp), fun h => absurd h hgt⟩
  · intro hs
    rw [sendStep, if_neg (by omega)]
    exact ⟨rfl, rfl⟩

/-- Witness for C6: from a connected state with 50 accumulated errors, a
failing send reaches count 51 and drops the link; from a connected state
with 7 accumulated errors, a successful send resets the count to 0 and
stays connected. -/
theorem send_single_call_witness :
    (sendStep 0 { connected := true, err_count := 50 }).err_count = 51 ∧
    (sendStep 0 { connected := true, err_count := 50 }).connected = false ∧
    (sendStep 1 { connected := true, err_count := 7 }).err_count = 0 ∧
    (sendStep 1 { connected := true, err_count := 7 }).connected = true := by
  have h50 := send_single_call { connected := true, err_count := 50 } 0
  have h7 := send_single_call { connected := true, err_count := 7 } 1
  refine ⟨?_, ?_, ?_, ?_⟩
  · have := (h50.1 (by norm_num)).1
    simpa using this
  · exact ((h50.1 (by norm_num)).2 rfl).mpr (by norm_num)
  · exact (h7.2 (by norm_num)).1
  · rw [(h7.2 (by norm_num)).2]

/-- Unfolding one send of a block. -/
lemma sendSeq_cons (e : Int) (t : List Int) (s : LinkState) :
    sendSeq (e :: t) s = sendSeq t (sendStep e s) := rfl

/-- Invariant driving the C2 induction: as long as the running error count
stays at most 50 over a block of failing sends, the link remains connected
and the counter just accumulates. -/
lemma sendSeq_fail_below_threshold :
    ∀ (k : Nat) (j : Int), 0 ≤ j → j + k ≤ 50 →
      sendSeq (List.replicate k 0) { connected := true, err_count := j } =
        { connected := true, err_count := j + k } := by
  intro k
  induction k with
  | zero => intro j _ _; simp [sendSeq]
  | succ m ih =>
    intro j hj hle
    have hstep : sendStep 0 { connected := true, err_count := j } =
        { connected := true, err_count := j + 1 } := by
      rw [sendStep, if_pos (by omega)]
      show ({ connected := if j + 1 > 50 then false else true,
              err_count := j + 1 } : LinkState) = _
      rw [if_neg (by omega)]
    rw [List.replicate_succ, sendSeq_cons, hstep, ih (j + 1) (by omega) (by omega)]
    congr 1
    push_cast
    ring

/-- C2 counterexample: after a successful join and 51 consecutive failed
sends, the error counter holds 51 — it is not reset to 0 on the 51st
failure's transition, contrary to the claim. -/
theorem link_51_failures_count_not_reset :
    (sendSeq (List.replicate 51 0) { connected := true, err_count := 0 }).err_count ≠ 0 := by
  decide

/-- C2 (amended): from a successful join (`connected`, count 0), the first
50 failed sends keep the link connected with the counter taking values
1..50; the 51st failed send flips the link to disconnected with the counter
at 51 (the counter is reset to 0 only by a later successful send or a later
successful join, not on this transition); and a successful join itself
yields exactly the connected, zero-count state. -/
theorem link_51_failures :
    (∀ (ret : Int) (s : LinkState), ret ≠ 0 →
      connectStep ret s = { connected := true, err_count := 0 }) ∧
    (∀ k : Nat, k ≤ 50 →
      sendSeq (List.replicate k 0) { connected := true, err_count := 0 } =
        { connected := true, err_count := (k : Int) }) ∧
    sendSeq (List.replicate 51 0) { connected := true, err_count := 0 } =
      { connected := false, err_count := 51 } := by
  refine ⟨?_, ?_, ?_⟩
  · intro ret s hret
    rw [connectStep, if_pos hret]
  · intro k hk
    have := sendSeq_fail_below_threshold k 0 (by omega) (by omega)
    simpa using this
  · decide

/-- Witness for C2: the bounds discharged at the concrete inputs — a join
returning 1, the 50-failure block, and the 51st failure. -/
theorem link_51_failures_witness :
    connectStep 1 { connected := false, err_count := 7 } =
      { connected := true, err_count := 0 } ∧
    sendSeq (List.replicate 50 0) { connected := true, err_count := 0 } =
      { connected := true, err_count := 50 } ∧
    sendSeq (List.replicate 51 0) { connected := true, err_count := 0 } =
      { connected := false, err_count := 51 } := by
  refine ⟨?_, ?_, ?_⟩
  · exact link_51_failures.1 1 { connected := false, err_count := 7 } (by norm_num)
  · have := link_51_failures.2.1 50 (by norm_num)
    simpa using this
  · exact link_51_failures.2.2

lemma isDevEUI_length {v : List Char} (h : isDevEUI v = true) : v.length = 17 :=
  isCredential_length h

lemma isAppKey_length {v : List Char} (h : isAppKey v = true) : v.length = 33 :=
  isCredential_length h

/-- Single-command frame lemma: each credential field is either left
untouched or overwritten by a value whose validated length is 17
(devEui/appEui) or 33 (appKey). -/
lemma processCommand_creds (c : List Char) (s : CredState) :
    ((processCommand c s).devEui = s.devEui ∨ (processCommand c s).devEui.length = 17) ∧
    ((processCommand c s).appEui = s.appEui ∨ (processCommand c s).appEui.length = 17) ∧
    ((processCommand c s).appKey = s.appKey ∨ (processCommand c s).appKey.length = 33) := by
  simp only [processCommand]
  split_ifs <;>
    refine ⟨?_, ?_, ?_⟩ <;>
    first
      | exact Or.inl rfl
      | exact Or.inr (isDevEUI_length (by assumption))
      | exact Or.inr (isAppKey_length (by assumption))

/-- C7: over any sequence of dispatched command lines, a credential that is
non-empty stays non-empty — no command clears a credential back to the empty
string. -/
theorem creds_never_cleared (cmds : List (List Char)) (s : CredState) :
    (s.devEui ≠ [] → (processSeq cmds s).devEui ≠ []) ∧
    (s.appEui ≠ [] → (processSeq cmds s).appEui ≠ []) ∧
    (s.appKey ≠ [] → (processSeq cmds s).appKey ≠ []) := by
  induction cmds generalizing s with
  | nil => exact ⟨id, id, id⟩
  | cons c t ih =>
    have hstep := processCommand_creds c s
    have hrec := ih (processCommand c s)
    have hseq : processSeq (c :: t) s = processSeq t (processCommand c s) := rfl
    rw [hseq]
    refine ⟨fun hd => hrec.1 ?_, fun ha => hrec.2.1 ?_, fun hk => hrec.2.2 ?_⟩
    · rcases hstep.1 with h | h
      · rw [h]; exact hd
      · intro he; rw [he] at h; simp at h
    · rcases hstep.2.1 with h | h
      · rw [h]; exact ha
      · intro he; rw [he] at h; simp at h
    · rcases hstep.2.2 with h | h
      · rw [h]; exact hk
      · intro he; rw [he] at h; simp at h

/-- A boot-session state in which all three credentials have been set. -/
def s7 : CredState :=
  { devEui := ['a'], appEui := ['b'], appKey := ['c'], configuration := false }

/-- Witness for C7: a non-empty credential triple survives a dispatched
command line. -/
theorem creds_never_cleared_witness :
    (processSeq ["AT+S\n".toList] s7).devEui ≠ [] ∧
    (processSeq ["AT+S\n".toList] s7).appEui ≠ [] ∧
    (processSeq ["AT+S\n".toList] s7).appKey ≠ [] := by
  have h := creds_never_cleared ["AT+S\n".toList] s7
  exact ⟨h.1 (by decide), h.2.1 (by decide), h.2.2 (by decide)⟩

/-- An accepted credential value (`command.remove(0,5)` of a
newline-terminated line) keeps the line's trailing terminator. -/
lemma accepted_keeps_terminator {c : List Char} {n : Nat}
    (hlast : c.getLast? = some '\n') (h : isCredential (c.drop 5) n = true) :
    (c.drop 5).length = n + 1 ∧ (c.drop 5).getLast? = some '\n' := by
  have hlen := isCredential_length h
  have hne : c.drop 5 ≠ [] := by
    intro he
    rw [he] at hlen
    simp at hlen
  exact ⟨hlen, by rw [getLast?_drop_ne_nil hne, hlast]⟩

lemma isDevEUI_keeps {c : List Char} (hlast : c.getLast? = some '\n')
    (h : isDevEUI (c.drop 5) = true) :
    (c.drop 5).length = 17 ∧ (c.drop 5).getLast? = some '\n' :=
  accepted_keeps_terminator hlast h

lemma isAppKey_keeps {c : List Char} (hlast : c.getLast? = some '\n')
    (h : isAppKey (c.drop 5) = true) :
    (c.drop 5).length = 33 ∧ (c.drop 5).getLast? = some '\n' :=
  accepted_keeps_terminator hlast h

/-- C9: processing a newline-terminated command line either leaves each
credential unchanged or stores a value of full length (17 for
devEui/appEui, 33 for appKey) still ending in the terminator `'\n'`; and
`connect()` passes exactly the stored strings (appEui, appKey, devEui) to
`joinOTAA` — the terminator is never stripped before use. -/
theorem creds_keep_terminator (c : List Char) (s : CredState)
    (hlast : c.getLast? = some '\n') :
    ((processCommand c s).devEui = s.devEui ∨
      ((processCommand c s).devEui.length = 17 ∧
       (processCommand c s).devEui.getLast? = some '\n')) ∧
    ((processCommand c s).appEui = s.appEui ∨
      ((processCommand c s).appEui.length = 17 ∧
       (processCommand c s).appEui.getLast? = some '\n')) ∧
    ((processCommand c s).appKey = s.appKey ∨
      ((processCommand c s).appKey.length = 33 ∧
       (processCommand c s).appKey.getLast? = some '\n')) ∧
    joinOTAACall (processCommand c s) =
      ((processCommand c s).appEui, (processCommand c s).appKey,
       (processCommand c s).devEui) := by
  refine ⟨?_, ?_, ?_, rfl⟩ <;>
  · simp only [processCommand]
    split_ifs <;>
      first
        | exact Or.inl rfl
        | exact Or.inr (isDevEUI_keeps hlast (by assumption))
        | exact Or.inr (isAppKey_keeps hlast (by assumption))

/-- A well-formed devEUI configuration line. -/
def cmdD : List Char := "AT+D=".toList ++ (List.replicate 16 'a' ++ ['\n'])

/-- The boot-time credential state: all strings empty, flag down. -/
def s0 : CredState :=
  { devEui := [], appEui := [], appKey := [], configuration := false }

/-- Witness for C9: the concrete accepted devEUI line, from the boot
state. -/
theorem creds_keep_terminator_witness :
    cmdD.getLast? = some '\n' ∧
    (((processCommand cmdD s0).devEui = s0.devEui ∨
       ((processCommand cmdD s0).devEui.length = 17 ∧
        (processCommand cmdD s0).devEui.getLast? = some '\n')) ∧
     ((processCommand cmdD s0).appEui = s0.appEui ∨
       ((processCommand cmdD s0).appEui.length = 17 ∧
        (processCommand cmdD s0).appEui.getLast? = some '\n')) ∧
     ((processCommand cmdD s0).appKey = s0.appKey ∨
       ((processCommand cmdD s0).appKey.length = 33 ∧
        (processCommand cmdD s0).appKey.getLast? = some '\n')) ∧
     joinOTAACall (processCommand cmdD s0) =
       ((processCommand cmdD s0).appEui, (processCommand cmdD s0).appKey,
        (processCommand cmdD s0).devEui)) :=
  ⟨by decide, creds_keep_terminator cmdD s0 (by decide)⟩

/-- C8: building the 8-byte payload from the four temperature-float bytes
followed by the four humidity-float bytes and decoding with the inverse
byte layout reproduces both 32-bit float patterns exactly — the byte-array
encode/decode is a lossless round-trip. -/
theorem payload_roundtrip (tBits hBits : Nat)
    (ht : tBits < 4294967296) (hh : hBits < 4294967296) :
    decodeMsg (buildMsg tBits hBits) = (tBits, hBits) := by
  have hlen : (floatBytes tBits).length = 4 := rfl
  have ht4 : (floatBytes tBits ++ floatBytes hBits).take 4 = floatBytes tBits := by
    rw [← hlen, List.take_left]
  have hd4 : (floatBytes tBits ++ floatBytes hBits).drop 4 = floatBytes hBits := by
    rw [← hlen, List.drop_left]
  have hinv : ∀ b : Nat, b < 4294967296 → bytesToBits (floatBytes b) = b := by
    intro b hb
    show b % 256 + 256 * (b / 256 % 256) + 65536 * (b / 256 / 256 % 256) +
      16777216 * (b / 256 / 256 / 256 % 256) = b
    omega
  show (bytesToBits ((floatBytes tBits ++ floatBytes hBits).take 4),
        bytesToBits ((floatBytes tBits ++ floatBytes hBits).drop 4)) = (tBits, hBits)
  rw [ht4, hd4, hinv tBits ht, hinv hBits hh]

/-- Witness for C8: the IEEE-754 single-precision patterns of 23.5
(0x41BC0000) and 60.0 (0x42700000) survive the payload round-trip. -/
theorem payload_roundtrip_witness :
    decodeMsg (buildMsg 1102839808 1114636288) = (1102839808, 1114636288) :=
  payload_roundtrip 1102839808 1114636288 (by norm_num) (by norm_num)

lemma digitsVal_cons (c : Char) (t : List Char) (acc : Nat) :
    digitsVal (c :: t) acc =
      if isDigitCh c then digitsVal t (acc * 10 + (c.toNat - 48)) else acc := rfl

/-- `atol` on text with no leading number (after whitespace and an optional
sign there is no decimal digit) yields 0. -/
lemma atolM_of_no_leading_num {l : List Char} (h : hasLeadingNum l = false) :
    atolM l = 0 := by
  rcases hsk : skipWs l with _ | ⟨c, t⟩
  · simp only [atolM, hsk]
  · simp only [atolM, hasLeadingNum, hsk] at h ⊢
    by_cases hc : c = '-' ∨ c = '+'
    · rw [if_pos hc] at h
      have hdig : digitsVal t 0 = 0 := by
        cases t with
        | nil => rfl
        | cons d u =>
          simp only [] at h
          rw [digitsVal_cons, if_neg (by simp [h])]
      rcases hc with hc | hc <;> subst hc
      · rw [if_pos rfl, hdig]
        rfl
      · rw [if_neg (by decide), if_pos rfl, hdig]
        rfl
    · rw [if_neg hc] at h
      push_neg at hc
      rw [if_neg hc.1, if_neg hc.2, digitsVal_cons, if_neg (by simp [h])]
      rfl

/-- C10: a store-read response with no `"+ERR"` marker whose text between
the first `'='` and the following line terminator is not a parseable number
makes `readNVM` return 0, not the 255 error sentinel — and that 0 is the
same value a genuine stored 0 produces. -/
theorem readNVM_malformed_is_zero (response : List Char)
    (herr : idxOfStr response ("+ERR".toList) = -1)
    (hnum : hasLeadingNum (nvmExtract response) = false) :
    readNVM response = 0 ∧ readNVM ("A=0\n".toList) = 0 := by
  constructor
  · rw [readNVM, if_pos herr]
    show toU8 (atolM (nvmExtract response)) = 0
    rw [atolM_of_no_leading_num hnum]
    rfl
  · decide

/-- Witness for C10: the success-shaped but non-numeric response
`"0=xy\n"`. -/
theorem readNVM_malformed_is_zero_witness :
    readNVM ("0=xy\n".toList) = 0 ∧ readNVM ("A=0\n".toList) = 0 :=
  readNVM_malformed_is_zero ("0=xy\n".toList) (by decide) (by decide)

end TPObjets
